import Mathlib

/-!
Verification of the commit-graph event log and rebase-planning core of
git-branchless, against its natural-language specification.

The development shallowly embeds:
- the event-log data model (events, snapshots) and the replay fold;
- the reference-transaction classifier (pack-refs no-op filter,
  active-operation buffering, ignore-branches globbing);
- the `advance` command (`src/git-branchless/src/commands/advance.rs`),
  with the rebase-plan builder and executor abstracted as oracles, since
  those library components are outside the staged sources.

Components whose code is not among the staged sources (the classifier, the
replayer, the glob matcher, the post-commit hook) are modelled from the
spec; each such definition's doc comment says so.
-/

/-- Object identifier.  An opaque hash; modelled as a natural number with
`zeroOid` reserved to mean "no commit" (ref creation/deletion encoding). -/
abbrev Oid := Nat

/-- The reserved "no commit" OID. -/
def zeroOid : Oid := 0

/-- A reference name.  The classifier matches ignore patterns against the
short name; the model identifies refs by their short name throughout. -/
abbrev RefName := String

/-- Event-log transaction id: a monotonically increasing integer. -/
abbrev TxId := Nat

/-- A semantic event of the durable event log (spec data model §3). -/
inductive Event where
  | refMove (tx : TxId) (refName : RefName) (oldOid newOid : Oid)
  | commitVisible (tx : TxId) (oid : Oid)
  | commitHide (tx : TxId) (oid : Oid)
  | commitUnhide (tx : TxId) (oid : Oid)
  | rewrite (tx : TxId) (oldOid newOid : Oid)
  | workingCopySnapshot (tx : TxId) (headOid : Oid)
deriving DecidableEq, Repr

/-- The transaction id carried by an event. -/
def Event.tx : Event → TxId
  | .refMove tx _ _ _ => tx
  | .commitVisible tx _ => tx
  | .commitHide tx _ => tx
  | .commitUnhide tx _ => tx
  | .rewrite tx _ _ => tx
  | .workingCopySnapshot tx _ => tx

/-- Association-list lookup (first binding wins). -/
def assocLookup {α β : Type} [DecidableEq α] : List (α × β) → α → Option β
  | [], _ => none
  | kv :: rest, k => if kv.1 = k then some kv.2 else assocLookup rest k

/-- Association-list update: replace the binding for `k`, or append one. -/
def assocSet {α β : Type} [DecidableEq α] : List (α × β) → α → β → List (α × β)
  | [], k, v => [(k, v)]
  | kv :: rest, k, v => if kv.1 = k then (k, v) :: rest else kv :: assocSet rest k v

/-- Association-list deletion of every binding for `k`. -/
def assocRemove {α β : Type} [DecidableEq α] (l : List (α × β)) (k : α) : List (α × β) :=
  l.filter (fun kv => kv.1 ≠ k)

/-- Insert an OID into a list-as-set, keeping insertion order. -/
def oidInsert (xs : List Oid) (o : Oid) : List Oid :=
  if o ∈ xs then xs else xs ++ [o]

/-- The replayer's derived snapshot: branch map, visible-commit set and the
ordered list of rewrite pairs (whose transitive closure is the rewrite
equivalence relation).  Derived, never stored (spec data model §3). -/
structure Snapshot where
  branches : List (RefName × Oid)
  visibleCommits : List Oid
  rewrites : List (Oid × Oid)
deriving DecidableEq, Repr

/-- The empty snapshot the replay fold starts from. -/
def emptySnapshot : Snapshot :=
  { branches := [], visibleCommits := [], rewrites := [] }

/-- Modelled from the spec: one step of the replayer's fold (§4.D).
`RefMove` sets or deletes the branch binding, visibility events toggle
membership of `visibleCommits`, `Rewrite` records a pair for the
equivalence relation, and a working-copy snapshot changes nothing. -/
def applyEvent (snap : Snapshot) (e : Event) : Snapshot :=
  match e with
  | .refMove _ r _ newOid =>
    if newOid = zeroOid then { snap with branches := assocRemove snap.branches r }
    else { snap with branches := assocSet snap.branches r newOid }
  | .commitVisible _ oid =>
    { snap with visibleCommits := oidInsert snap.visibleCommits oid }
  | .commitHide _ oid =>
    { snap with visibleCommits := snap.visibleCommits.filter (fun c => c ≠ oid) }
  | .commitUnhide _ oid =>
    { snap with visibleCommits := oidInsert snap.visibleCommits oid }
  | .rewrite _ oldOid newOid =>
    { snap with rewrites := snap.rewrites ++ [(oldOid, newOid)] }
  | .workingCopySnapshot _ _ => snap

/-- Modelled from the spec: the replayer folds the event stream, in total
log order, into a snapshot (§4.D). -/
def replay (events : List Event) : Snapshot :=
  events.foldl applyEvent emptySnapshot

/-- Modelled from the spec: replay bounded by a cursor (TxId upper bound);
events past the cursor are not observed (§4.D). -/
def replayUpTo (events : List Event) (cursor : TxId) : Snapshot :=
  events.foldl (fun snap e => if e.tx ≤ cursor then applyEvent snap e else snap)
    emptySnapshot

/-- Modelled from the spec: glob matching for `ignoreBranches` patterns —
`*` matches any run of segment characters (not `/`), `?` matches one
character, anything else is literal (§4.C rule 3).  Fuel-indexed so the
function is structurally recursive; every recursive call shrinks
`pattern.length + s.length`, so the initial fuel in `globMatch` always
suffices. -/
def globMatchAux : Nat → List Char → List Char → Bool
  | 0, _, _ => false
  | fuel + 1, pat, s =>
    match pat, s with
    | [], rest => rest.isEmpty
    | '*' :: ps, [] => globMatchAux fuel ps []
    | '*' :: ps, c :: cs =>
      globMatchAux fuel ps (c :: cs)
        || (decide (c ≠ '/') && globMatchAux fuel ('*' :: ps) cs)
    | '?' :: _, [] => false
    | '?' :: ps, _ :: cs => globMatchAux fuel ps cs
    | _ :: _, [] => false
    | p :: ps, c :: cs => (p == c) && globMatchAux fuel ps cs

/-- Glob match of a pattern against a ref's short name. -/
def globMatch (pat s : String) : Bool :=
  globMatchAux (pat.length + s.length + 1) pat.data s.data

/-- Modelled from the spec: a ref is ignored when its short name matches
any pattern of the `branchless.core.ignoreBranches` config (§4.C rule 3). -/
def refIsIgnored (patterns : List String) (refName : RefName) : Bool :=
  patterns.any (fun pat => globMatch pat refName)

/-- State of a reference transaction as reported to the hook. -/
inductive TxState where
  | prepared
  | committed
  | aborted
deriving DecidableEq, Repr

/-- A raw `(ref_name, old_oid, new_oid)` triple emitted by the VCS for one
atomic ref transaction. -/
structure Triple where
  refName : RefName
  oldOid : Oid
  newOid : Oid
deriving DecidableEq, Repr

/-- The VCS directories relevant to `packed_refs()`: a packed-refs file
only exists in the common directory; the per-worktree directory has none
(its mapping here is whatever stale or empty content a wrong read would
see). -/
structure VcsDirs where
  commonPackedRefs : List (RefName × Oid)
  worktreePackedRefs : List (RefName × Oid)

/-- Modelled from the spec: `packed_refs()` must read from the common VCS
directory, not from the per-worktree directory (§4.A packed-refs
contract). -/
def packedRefs (repo : VcsDirs) : List (RefName × Oid) := repo.commonPackedRefs

/-- Modelled from the spec: detection of the synthetic "creation"
`(r, 0, v)` and "deletion" `(r, v, 0)` triples emitted by `pack-refs`,
recognized by consulting the packed-refs mapping (§4.C rule 1). -/
def isSyntheticPackTriple (packed : List (RefName × Oid)) (t : Triple) : Bool :=
  (decide (t.oldOid = zeroOid) && decide (t.newOid ≠ zeroOid)
      && decide (assocLookup packed t.refName = some t.newOid))
    || (decide (t.newOid = zeroOid) && decide (t.oldOid ≠ zeroOid)
      && decide (assocLookup packed t.refName = some t.oldOid))

/-- Modelled from the spec: the reference-transaction classifier (§4.C).
Only `committed` transactions produce events; synthetic pack-refs triples
and ignored branches are dropped; a `RefMove` with `old_oid = new_oid` is
never persisted (log invariant, §3); otherwise a `RefMove` is emitted. -/
def classifyTriple (packed : List (RefName × Oid)) (patterns : List String)
    (tx : TxId) (st : TxState) (t : Triple) : Option Event :=
  match st with
  | .committed =>
    if isSyntheticPackTriple packed t then none
    else if refIsIgnored patterns t.refName then none
    else if t.oldOid = t.newOid then none
    else some (.refMove tx t.refName t.oldOid t.newOid)
  | _ => none

/-- The events the classifier persists for a stream of triples of one
transaction. -/
def classifyTriples (packed : List (RefName × Oid)) (patterns : List String)
    (tx : TxId) (st : TxState) (triples : List Triple) : List Event :=
  triples.filterMap (classifyTriple packed patterns tx st)

/-- The synthetic triples `pack-refs --all` fires per packed ref: a fake
creation `(r, 0, v)` followed by a fake deletion `(r, v, 0)`. -/
def packRefsTriples (packed : List (RefName × Oid)) : List Triple :=
  packed.flatMap (fun rv => [⟨rv.1, zeroOid, rv.2⟩, ⟨rv.1, rv.2, zeroOid⟩])

/-- Hook-side persistent state: the durable event log, the pending buffer
used while an on-disk operation is underway, and the sentinel flag for
that operation (spec §4.C rule 2, design note on ref-transaction
buffering). -/
structure HookState where
  log : List Event
  pending : List Event
  rebaseUnderway : Bool
deriving DecidableEq, Repr

/-- An input arriving at the hook layer: the start of an on-disk rebase
(sentinel file appears), a reference transaction, a post-commit, the
terminating post-rewrite, or `rebase --abort`. -/
inductive HookInput where
  | beginRebase
  | refTransaction (tx : TxId) (st : TxState) (t : Triple)
  | postCommitEvent (tx : TxId) (oid : Oid)
  | postRewrite (tx : TxId) (pairs : List (Oid × Oid))
  | abortRebase
deriving DecidableEq, Repr

/-- An input that can occur in the middle of an on-disk rebase (neither
the terminating post-rewrite nor an abort nor the start sentinel). -/
def HookInput.isMidOperation : HookInput → Bool
  | .refTransaction .. => true
  | .postCommitEvent .. => true
  | _ => false

/-- Modelled from the spec: the events one hook input asks to persist —
the classifier's output for a ref transaction (§4.C), and
`CommitVisible` plus a `WorkingCopySnapshot` for a post-commit (§4.C last
paragraph). -/
def hookEventsOf (packed : List (RefName × Oid)) (patterns : List String) :
    HookInput → List Event
  | .refTransaction tx st t => (classifyTriple packed patterns tx st t).toList
  | .postCommitEvent tx oid => [.commitVisible tx oid, .workingCopySnapshot tx oid]
  | _ => []

/-- Modelled from the spec: the active-operation guard (§4.C rule 2 and
the §9 design note).  While an on-disk rebase is underway, hook events go
to the pending buffer instead of the log; the terminating post-rewrite
flushes the buffer (plus the rewrite pairs) into the log; `rebase
--abort` discards the buffer. -/
def hookStep (packed : List (RefName × Oid)) (patterns : List String)
    (s : HookState) (i : HookInput) : HookState :=
  match i with
  | .beginRebase => { s with rebaseUnderway := true }
  | .refTransaction .. | .postCommitEvent .. =>
    let evs := hookEventsOf packed patterns i
    if s.rebaseUnderway then { s with pending := s.pending ++ evs }
    else { s with log := s.log ++ evs }
  | .postRewrite tx pairs =>
    { log := s.log ++ s.pending ++ pairs.map (fun p => Event.rewrite tx p.1 p.2),
      pending := [], rebaseUnderway := false }
  | .abortRebase => { s with pending := [], rebaseUnderway := false }

/-- Fold a stream of hook inputs through the hook layer. -/
def processHookInputs (packed : List (RefName × Oid)) (patterns : List String)
    (s : HookState) (inputs : List HookInput) : HookState :=
  inputs.foldl (hookStep packed patterns) s

/-- The events a list of mid-operation inputs asks to persist, in order. -/
def midOperationEvents (packed : List (RefName × Oid)) (patterns : List String)
    (inputs : List HookInput) : List Event :=
  inputs.flatMap (hookEventsOf packed patterns)

/-- One saturation pass over the rewrite pairs: any pair touching the
accumulated class pulls both of its endpoints in. -/
def growOnce (pairs : List (Oid × Oid)) (acc : List Oid) : List Oid :=
  pairs.foldl
    (fun acc p =>
      if p.1 ∈ acc ∨ p.2 ∈ acc then oidInsert (oidInsert acc p.1) p.2 else acc)
    acc

/-- Iterated saturation. -/
def iterGrow (pairs : List (Oid × Oid)) : Nat → List Oid → List Oid
  | 0, acc => acc
  | n + 1, acc => iterGrow pairs n (growOnce pairs acc)

/-- Modelled from the spec: the rewrite equivalence class of `c` — the
transitive closure of the `Rewrite` pairs (§3, §4.D); `pairs.length`
saturation passes reach the fixpoint. -/
def classOf (pairs : List (Oid × Oid)) (c : Oid) : List Oid :=
  iterGrow pairs pairs.length [c]

/-- Modelled from the spec: the canonical representative of `c`'s rewrite
equivalence class is the most recent `new_oid` seen for that class, `c`
itself when the class has none (§4.D fold, §9 design note). -/
def canonicalRep (pairs : List (Oid × Oid)) (c : Oid) : Oid :=
  pairs.foldl (fun rep p => if p.2 ∈ classOf pairs c then p.2 else rep) c

/-- Modelled from the spec: the replayer's abandoned-commit computation
(§4.D): a commit of `visible_commits` whose equivalence class has a later
representative distinct from it, and at which no currently-live ref
points. -/
def isAbandoned (snap : Snapshot) (c : Oid) : Bool :=
  decide (c ∈ snap.visibleCommits)
    && decide (canonicalRep snap.rewrites c ≠ c)
    && !(snap.branches.any (fun b => decide (b.2 = c)))

/-- The abandoned commits surfaced to the UI as hints. -/
def abandonedCommits (snap : Snapshot) : List Oid :=
  snap.visibleCommits.filter (isAbandoned snap)

/-- Bounded reachability in the commit graph: does `tgt` lie among `src`
or its ancestors within `fuel` parent steps? -/
def reachesFrom (parentsOf : Oid → List Oid) : Nat → Oid → Oid → Bool
  | 0, src, tgt => decide (src = tgt)
  | fuel + 1, src, tgt =>
    decide (src = tgt) || (parentsOf src).any (fun p => reachesFrom parentsOf fuel p tgt)

/-- Following the claim's words (not the replayer's algorithm): some
currently-live ref reaches `c` through ancestry.  Stated only to compare
the claimed characterization of abandonment with the modelled one. -/
def refReaches (parentsOf : Oid → List Oid) (fuel : Nat) (snap : Snapshot)
    (c : Oid) : Bool :=
  snap.branches.any (fun b => reachesFrom parentsOf fuel b.2 c)

/-- Errors of the rebase planner's `build`
(`lib::core::rewrite::BuildRebasePlanError`); payload commit sets kept
where `advance` inspects them. -/
inductive BuildRebasePlanError where
  | constraintCycle
  | moveIllegalCommits (commits : List Oid)
  | movePublicCommits (publicCommitsToMove : List Oid)
deriving DecidableEq, Repr

/-- A rebase plan abstracted to its `move_subtree` content: each step is a
source commit with its declared new parents (labels and resets are
rendering of the same data). -/
abbrev RebasePlan := List (Oid × List Oid)

/-- Outcomes of `execute_rebase_plan`
(`lib::core::rewrite::ExecuteRebasePlanResult`); payloads that `advance`
ignores (`rewritten_oids`, `failed_merge_info`) are elided. -/
inductive ExecuteRebasePlanResult where
  | succeeded
  | wouldSucceed
  | declinedToMerge
  | failed (exitCode : Int)
deriving DecidableEq, Repr

/-- The DAG view as `advance` queries it: the visible commit universe with
a parent function (the model uses one parent source for both
`dag.query_parents` and `head_commit.get_parent_oids`, which agree on a
synced DAG). -/
structure DagModel where
  commits : List Oid
  parentsOf : Oid → List Oid
  visible : List Oid

/-- `dag.query_children`: the commits having a parent in `ps`. -/
def queryChildren (dag : DagModel) (ps : List Oid) : List Oid :=
  dag.commits.filter (fun c => (dag.parentsOf c).any (fun p => ps.contains p))

/-- `dag.filter_visible_commits`. -/
def filterVisibleCommits (dag : DagModel) (cs : List Oid) : List Oid :=
  cs.filter (fun c => dag.visible.contains c)

/-- The sibling set `advance` computes: visible children of HEAD's parents
other than HEAD itself (`advance.rs:104-108`). -/
def advanceSiblings (dag : DagModel) (headOid : Oid) : List Oid :=
  filterVisibleCommits dag
    ((queryChildren dag (dag.parentsOf headOid)).filter (fun c => c ≠ headOid))

/-- The new-parent list computed per sibling (`advance.rs:146-155`): each
parent that is one of HEAD's parents is replaced by HEAD, any other parent
is kept, in order. -/
def newParentOids (headCommitParents : List Oid) (headOid : Oid)
    (parentOids : List Oid) : List Oid :=
  parentOids.map
    (fun parentOid => if headCommitParents.contains parentOid then headOid else parentOid)

/-- The `move_subtree` calls `advance` issues, one per sibling in the
order `commit_set_to_vec` yields them (`advance.rs:143-157`). -/
def advanceMoves (dag : DagModel) (headOid : Oid) : RebasePlan :=
  (advanceSiblings dag headOid).map
    (fun s => (s, newParentOids (dag.parentsOf headOid) headOid (dag.parentsOf s)))

/-- The world `advance` runs against: the DAG view, HEAD's resolved OID,
and oracles for the two library calls outside the staged sources — the
plan builder (`RebasePlanBuilder::build` after the issued `move_subtree`
calls) and the plan executor (`execute_rebase_plan`). -/
structure AdvanceEnv where
  dag : DagModel
  headOid : Option Oid
  buildPlan : RebasePlan → Except BuildRebasePlanError (Option RebasePlan)
  executePlan : RebasePlan → ExecuteRebasePlanResult

/-- What one `advance` run did: whether a transaction id was allocated in
the event-log store, the lines printed (commit-description rendering
abstracted away), the exit code, the `move_subtree` calls issued to the
builder if the plan stage was reached, and the plan executed if any. -/
structure AdvanceOutcome where
  txAllocated : Bool
  output : List String
  exitCode : Int
  movesRequested : Option RebasePlan
  executedPlan : Option RebasePlan
deriving DecidableEq, Repr

/-- Output line of `advance.rs:95-98`. -/
def noHeadMessage : String := "No commit is currently checked out."

/-- Output line of `advance.rs:111` and `advance.rs:168`. -/
def noChildMessage : String := "No child commits to advance."

/-- Header of `advance.rs:116-127`, with the count pluralized as by
`Pluralize`; the commit description that follows "onto" is terminal
rendering, out of scope. -/
def advancingMessage (n : Nat) : String :=
  "Advancing " ++ toString n ++ " " ++ (if n = 1 then "commit" else "commits") ++ " onto HEAD."

/-- Output line of `advance.rs:173-176`. -/
def constraintCycleMessage : String :=
  "BUG: constraint cycle detected when moving siblings, which shouldn't be possible."

/-- The last line of the public-commit guidance (`advance.rs:193-208`). -/
def publicCommitsAdvice : String := "To proceed anyways, run: git advance -f"

/-- Placeholder for `err.describe` on illegal-commit errors
(`advance.rs:180-182`); its text is library rendering, out of scope. -/
def illegalCommitsDescription : String := "cannot move the requested commits"

/-- The `advance` control flow from the sibling query on
(`advance.rs:104-247`): an empty sibling set prints `noChildMessage` and
exits 0 before any plan is built; otherwise the header is printed, the
moves are issued to the builder, and the plan result and execution
outcome are dispatched exactly as the source's `match` arms do.  On
success the smartlog is rendered (out of scope) and the command exits
0. -/
def advanceWithHead (env : AdvanceEnv) (headOid : Oid) : AdvanceOutcome :=
  let siblings := advanceSiblings env.dag headOid
  if siblings.isEmpty then
    { txAllocated := true, output := [noChildMessage], exitCode := 0,
      movesRequested := none, executedPlan := none }
  else
    let header := advancingMessage siblings.length
    let moves := advanceMoves env.dag headOid
    match env.buildPlan moves with
    | .ok (some plan) =>
      match env.executePlan plan with
      | .succeeded =>
        { txAllocated := true, output := [header], exitCode := 0,
          movesRequested := some moves, executedPlan := some plan }
      | .wouldSucceed =>
        { txAllocated := true, output := [header], exitCode := 0,
          movesRequested := some moves, executedPlan := some plan }
      | .declinedToMerge =>
        { txAllocated := true, output := [header], exitCode := 1,
          movesRequested := some moves, executedPlan := some plan }
      | .failed exitCode =>
        { txAllocated := true, output := [header], exitCode := exitCode,
          movesRequested := some moves, executedPlan := some plan }
    | .ok none =>
      { txAllocated := true, output := [header, noChildMessage], exitCode := 0,
        movesRequested := some moves, executedPlan := none }
    | .error .constraintCycle =>
      { txAllocated := true, output := [header, constraintCycleMessage], exitCode := 1,
        movesRequested := some moves, executedPlan := none }
    | .error (.moveIllegalCommits _) =>
      { txAllocated := true, output := [header, illegalCommitsDescription], exitCode := 1,
        movesRequested := some moves, executedPlan := none }
    | .error (.movePublicCommits _) =>
      { txAllocated := true, output := [header, publicCommitsAdvice], exitCode := 0,
        movesRequested := some moves, executedPlan := none }

/-- Shallow embedding of the `advance` command (`advance.rs:69-247`).
The transaction id is allocated before HEAD is inspected
(`advance.rs:78` precedes `advance.rs:91`), so `txAllocated` is true on
every path; an unborn HEAD prints `noHeadMessage` and exits 1 with no
plan built and no rebase executed (`advance.rs:91-101`). -/
def advance (env : AdvanceEnv) : AdvanceOutcome :=
  match env.headOid with
  | none =>
    { txAllocated := true, output := [noHeadMessage], exitCode := 1,
      movesRequested := none, executedPlan := none }
  | some headOid => advanceWithHead env headOid

/-- The config key enabling auto-advance. -/
def advanceAutoKey : String := "branchless.advance.auto"

/-- Boolean config as a key-value lookup (spec scope note: configuration
is exposed to the core only as a key-to-value lookup). -/
abbrev Config := List (String × Bool)

/-- What the post-commit hook did: the events it persists and, when
auto-advance fired, the outcome of the `advance` run. -/
structure PostCommitResult where
  events : List Event
  advanceOutcome : Option AdvanceOutcome

/-- Modelled from the spec: the post-commit hook emits `CommitVisible`
for HEAD and a `WorkingCopySnapshot` (§4.C last paragraph), then runs the
same advance algorithm when `branchless.advance.auto` is true (§4.H). -/
def postCommitHook (cfg : Config) (tx : TxId) (headOid : Oid)
    (env : AdvanceEnv) : PostCommitResult :=
  { events := [.commitVisible tx headOid, .workingCopySnapshot tx headOid],
    advanceOutcome :=
      if (assocLookup cfg advanceAutoKey).getD false then some (advance env) else none }

/-- A concrete common-dir packed-refs mapping with two refs, as produced
by packing the repo of the worktree pack-refs test (two branches). -/
def packEnvRepo : VcsDirs :=
  { commonPackedRefs := [("master", 10), ("feature", 11)], worktreePackedRefs := [] }

/-- A concrete pre-pack event log: both branches created and their
commits visible. -/
def packEnvLog : List Event :=
  [Event.commitVisible 1 10, Event.refMove 1 "master" zeroOid 10,
   Event.commitVisible 2 11, Event.refMove 2 "feature" zeroOid 11]

/-- A concrete pre-rebase hook state: two visible commits and a branch,
no operation underway. -/
def preRebaseState : HookState :=
  { log := [Event.commitVisible 1 100, Event.commitVisible 2 200,
            Event.refMove 2 "b" zeroOid 200],
    pending := [], rebaseUnderway := false }

/-- Concrete mid-rebase traffic: an amend's HEAD move and a new commit,
as in the abort scenario of the hook test. -/
def midRebaseInputs : List HookInput :=
  [HookInput.refTransaction 3 TxState.committed ⟨"HEAD", 200, 300⟩,
   HookInput.postCommitEvent 3 300]

/-- Parent function of a two-commit graph: commit 2 is a child of
commit 1. -/
def abandonedParents : Oid → List Oid := fun c => if c = 2 then [1] else []

/-- Events: both commits visible, branch `b` on commit 2, commit 1
rewritten to commit 3. -/
def abandonedSnapEvents : List Event :=
  [Event.commitVisible 1 1, Event.commitVisible 1 2,
   Event.refMove 1 "b" zeroOid 2, Event.rewrite 2 1 3]

/-- The snapshot replayed from `abandonedSnapEvents`. -/
def abandonedSnap : Snapshot := replay abandonedSnapEvents

/-- A concrete stack: commits 2 and 3 are children of commit 1, all
visible.  With HEAD at 3, commit 2 is the one sibling. -/
def dagStack : DagModel :=
  { commits := [1, 2, 3],
    parentsOf := fun c => if c = 2 then [1] else if c = 3 then [1] else [],
    visible := [1, 2, 3] }

/-- Environment whose builder accepts the moves as the plan and whose
executor succeeds. -/
def envOkPlan : AdvanceEnv :=
  { dag := dagStack, headOid := some 3,
    buildPlan := fun m => .ok (some m), executePlan := fun _ => .succeeded }

/-- Environment whose builder elides every step (`Ok(None)`). -/
def envElided : AdvanceEnv :=
  { dag := dagStack, headOid := some 3,
    buildPlan := fun _ => .ok none, executePlan := fun _ => .succeeded }

/-- Environment whose builder refuses with a public-commit error. -/
def envPublicRefusal : AdvanceEnv :=
  { dag := dagStack, headOid := some 3,
    buildPlan := fun _ => .error (.movePublicCommits [2]),
    executePlan := fun _ => .succeeded }

/-- Environment with a single rootless commit checked out: no siblings. -/
def envNoSiblings : AdvanceEnv :=
  { dag := { commits := [1], parentsOf := fun _ => [], visible := [1] },
    headOid := some 1,
    buildPlan := fun m => .ok (some m), executePlan := fun _ => .succeeded }

/-- Environment with an unborn HEAD (no commit checked out). -/
def envNoHead : AdvanceEnv :=
  { dag := dagStack, headOid := none,
    buildPlan := fun m => .ok (some m), executePlan := fun _ => .succeeded }

/-- Association lookup finds the stored value when the keys are
duplicate-free. -/
theorem assocLookup_of_mem_nodup {α β : Type} [DecidableEq α] :
    ∀ (l : List (α × β)), (l.map Prod.fst).Nodup →
      ∀ kv ∈ l, assocLookup l kv.1 = some kv.2 := by
  intro l
  induction l with
  | nil => intro _ kv hkv; cases hkv
  | cons hd tl ih =>
    intro hnodup kv hkv
    rw [List.map_cons, List.nodup_cons] at hnodup
    rcases List.mem_cons.mp hkv with h | h
    · subst h; simp [assocLookup]
    · have hne : hd.1 ≠ kv.1 := by
        intro he
        exact hnodup.1 (he ▸ List.mem_map_of_mem Prod.fst h)
      simp [assocLookup, hne, ih hnodup.2 kv h]

/-- The classifier drops both synthetic triples of a packed ref. -/
theorem classifyTriple_packed_noop (packed : List (RefName × Oid))
    (patterns : List String) (tx : TxId) (r : RefName) (v : Oid)
    (hv : v ≠ zeroOid) (hl : assocLookup packed r = some v) :
    classifyTriple packed patterns tx TxState.committed ⟨r, zeroOid, v⟩ = none ∧
    classifyTriple packed patterns tx TxState.committed ⟨r, v, zeroOid⟩ = none := by
  constructor
  · have hsyn : isSyntheticPackTriple packed ⟨r, zeroOid, v⟩ = true := by
      simp [isSyntheticPackTriple, hl, hv]
    simp [classifyTriple, hsyn]
  · have hsyn : isSyntheticPackTriple packed ⟨r, v, zeroOid⟩ = true := by
      simp [isSyntheticPackTriple, hl, hv]
    simp [classifyTriple, hsyn]

/-- Bounded replay is the plain fold of the prefix selected by the
cursor, from any starting snapshot. -/
theorem foldl_cursor_eq_filter (cursor : TxId) :
    ∀ (events : List Event) (snap : Snapshot),
      events.foldl (fun s e => if e.tx ≤ cursor then applyEvent s e else s) snap =
        (events.filter (fun e => e.tx ≤ cursor)).foldl applyEvent snap := by
  intro events
  induction events with
  | nil => intro snap; rfl
  | cons e rest ih =>
    intro snap
    by_cases h : e.tx ≤ cursor
    · simp [List.filter_cons, h, ih]
    · simp [List.filter_cons, h, ih]

/-- Claim C8: replaying an event sequence up to a cursor is a
deterministic fold — two replays over the same events and cursor are the
same snapshot (same branches, visible commits and rewrite pairs), and the
result is exactly the fold of the events at or before the cursor. -/
theorem replay_deterministic (events : List Event) (cursor : TxId) :
    replayUpTo events cursor = replayUpTo events cursor ∧
    replay events = replay events ∧
    replayUpTo events cursor = replay (events.filter (fun e => e.tx ≤ cursor)) := by
  refine ⟨rfl, rfl, ?_⟩
  unfold replayUpTo replay
  exact foldl_cursor_eq_filter cursor events emptySnapshot

/-- Claim C1: pack-refs idempotence.  `packed_refs()` reads the common
VCS directory (also when invoked from a linked worktree); every synthetic
pack-refs triple of a ref currently mapped in packed-refs is dropped by
the classifier under `tx_state = committed`, so `pack-refs --all`
persists no events and the replayed snapshot — hence the smartlog — is
unchanged. -/
theorem packRefs_idempotent (repo : VcsDirs) (patterns : List String) (tx : TxId)
    (log : List Event)
    (hkeys : ((packedRefs repo).map Prod.fst).Nodup)
    (hnz : ∀ rv ∈ packedRefs repo, rv.2 ≠ zeroOid) :
    packedRefs repo = repo.commonPackedRefs ∧
    classifyTriples (packedRefs repo) patterns tx TxState.committed
        (packRefsTriples (packedRefs repo)) = [] ∧
    replay (log ++ classifyTriples (packedRefs repo) patterns tx TxState.committed
        (packRefsTriples (packedRefs repo))) = replay log := by
  have hnil : classifyTriples (packedRefs repo) patterns tx TxState.committed
      (packRefsTriples (packedRefs repo)) = [] := by
    unfold classifyTriples
    rw [List.filterMap_eq_nil_iff]
    intro t ht
    rcases List.mem_flatMap.mp ht with ⟨rv, hrv, htm⟩
    have hlook := assocLookup_of_mem_nodup _ hkeys rv hrv
    have hv := hnz rv hrv
    have hcases : t = ⟨rv.1, zeroOid, rv.2⟩ ∨ t = ⟨rv.1, rv.2, zeroOid⟩ := by
      simpa using htm
    rcases hcases with h | h
    · subst h
      exact (classifyTriple_packed_noop (packedRefs repo) patterns tx rv.1 rv.2 hv hlook).1
    · subst h
      exact (classifyTriple_packed_noop (packedRefs repo) patterns tx rv.1 rv.2 hv hlook).2
  exact ⟨rfl, hnil, by rw [hnil, List.append_nil]⟩

/-- Witness for C1 at a concrete two-branch repository. -/
theorem packRefs_idempotent_witness :
    classifyTriples (packedRefs packEnvRepo) [] 7 TxState.committed
        (packRefsTriples (packedRefs packEnvRepo)) = [] ∧
    replay (packEnvLog ++ classifyTriples (packedRefs packEnvRepo) [] 7 TxState.committed
        (packRefsTriples (packedRefs packEnvRepo))) = replay packEnvLog :=
  ⟨(packRefs_idempotent packEnvRepo [] 7 packEnvLog (by decide) (by decide)).2.1,
   (packRefs_idempotent packEnvRepo [] 7 packEnvLog (by decide) (by decide)).2.2⟩

/-- While the rebase sentinel is up, mid-operation inputs leave the log
untouched and only grow the pending buffer. -/
theorem processHookInputs_midOperation (packed : List (RefName × Oid))
    (patterns : List String) :
    ∀ (inputs : List HookInput) (s : HookState), s.rebaseUnderway = true →
      (∀ i ∈ inputs, i.isMidOperation = true) →
      processHookInputs packed patterns s inputs =
        { s with pending := s.pending ++ midOperationEvents packed patterns inputs } := by
  intro inputs
  induction inputs with
  | nil =>
    intro s _ _
    simp [processHookInputs, midOperationEvents]
  | cons i rest ih =>
    intro s hu hmid
    have hi := hmid i (List.mem_cons_self i rest)
    have hstep : hookStep packed patterns s i =
        { s with pending := s.pending ++ hookEventsOf packed patterns i } := by
      cases i with
      | beginRebase => simp [HookInput.isMidOperation] at hi
      | refTransaction tx st t => simp [hookStep, hu]
      | postCommitEvent tx oid => simp [hookStep, hu]
      | postRewrite tx pairs => simp [HookInput.isMidOperation] at hi
      | abortRebase => simp [HookInput.isMidOperation] at hi
    have hrest := ih { s with pending := s.pending ++ hookEventsOf packed patterns i }
      hu (fun j hj => hmid j (List.mem_cons_of_mem i hj))
    show processHookInputs packed patterns (hookStep packed patterns s i) rest = _
    rw [hstep, hrest]
    simp [midOperationEvents, List.append_assoc]

/-- Claim C2: rebase-abort atomicity.  Events arriving while an on-disk
rebase is underway (ref moves from amends, new commits) are buffered into
the pending file, never the log; `rebase --abort` discards the buffer, so
the persisted log — and hence the replayed snapshot — after the abort
equals the one from before the rebase started. -/
theorem rebase_abort_atomic (packed : List (RefName × Oid)) (patterns : List String)
    (s : HookState) (inputs : List HookInput)
    (hmid : ∀ i ∈ inputs, i.isMidOperation = true) :
    (processHookInputs packed patterns { s with rebaseUnderway := true } inputs).log
        = s.log ∧
    (processHookInputs packed patterns { s with rebaseUnderway := true } inputs).pending
        = s.pending ++ midOperationEvents packed patterns inputs ∧
    (processHookInputs packed patterns { s with rebaseUnderway := true }
        (inputs ++ [HookInput.abortRebase])).log = s.log ∧
    (processHookInputs packed patterns { s with rebaseUnderway := true }
        (inputs ++ [HookInput.abortRebase])).pending = [] ∧
    replay (processHookInputs packed patterns { s with rebaseUnderway := true }
        (inputs ++ [HookInput.abortRebase])).log = replay s.log := by
  have hmain := processHookInputs_midOperation packed patterns inputs
    { s with rebaseUnderway := true } rfl hmid
  have happ : processHookInputs packed patterns { s with rebaseUnderway := true }
      (inputs ++ [HookInput.abortRebase]) =
      hookStep packed patterns
        (processHookInputs packed patterns { s with rebaseUnderway := true } inputs)
        HookInput.abortRebase := by
    simp [processHookInputs, List.foldl_append]
  refine ⟨?_, ?_, ?_, ?_, ?_⟩ <;> simp [hmain, happ, hookStep]

/-- Witness for C2: an amend's ref move and a fresh commit during a
failed rebase are discarded by the abort. -/
theorem rebase_abort_atomic_witness :
    (processHookInputs [] [] { preRebaseState with rebaseUnderway := true }
        (midRebaseInputs ++ [HookInput.abortRebase])).log = preRebaseState.log ∧
    (processHookInputs [] [] { preRebaseState with rebaseUnderway := true }
        (midRebaseInputs ++ [HookInput.abortRebase])).pending = [] ∧
    replay (processHookInputs [] [] { preRebaseState with rebaseUnderway := true }
        (midRebaseInputs ++ [HookInput.abortRebase])).log = replay preRebaseState.log :=
  ⟨(rebase_abort_atomic [] [] preRebaseState midRebaseInputs (by decide)).2.2.1,
   (rebase_abort_atomic [] [] preRebaseState midRebaseInputs (by decide)).2.2.2.1,
   (rebase_abort_atomic [] [] preRebaseState midRebaseInputs (by decide)).2.2.2.2⟩

/-- Claim C3 (amended): a commit is reported abandoned iff it is visible,
its rewrite equivalence class has a later canonical representative
distinct from it, and no currently-live ref points at it (pointing
directly, not merely reaching it through ancestry). -/
theorem abandoned_commit_characterization (snap : Snapshot) (c : Oid) :
    isAbandoned snap c = true ↔
      c ∈ snap.visibleCommits ∧ canonicalRep snap.rewrites c ≠ c ∧
        ∀ b ∈ snap.branches, b.2 ≠ c := by
  unfold isAbandoned
  constructor
  · intro h
    rcases Bool.and_eq_true_iff.mp h with ⟨h12, h3⟩
    rcases Bool.and_eq_true_iff.mp h12 with ⟨h1, h2⟩
    refine ⟨of_decide_eq_true h1, of_decide_eq_true h2, ?_⟩
    intro b hb hbc
    have hany : snap.branches.any (fun b => decide (b.2 = c)) = true :=
      List.any_eq_true.mpr ⟨b, hb, decide_eq_true hbc⟩
    rw [hany] at h3
    exact absurd h3 (by decide)
  · rintro ⟨h1, h2, h3⟩
    have hany : snap.branches.any (fun b => decide (b.2 = c)) = false := by
      rw [List.any_eq_false]
      intro b hb
      simpa using h3 b hb
    rw [hany]
    simp [h1, h2]

/-- Counterexample to C3 as stated: in the snapshot replayed from
`abandonedSnapEvents` (branch `b` on commit 2, whose parent commit 1 was
rewritten to 3), commit 1 is reported abandoned although the live ref `b`
reaches it, so "abandoned iff rewritten and no live ref reaches it" is
false there. -/
theorem abandoned_reaches_counterexample :
    isAbandoned abandonedSnap 1 = true ∧
    refReaches abandonedParents 2 abandonedSnap 1 = true ∧
    ¬ (isAbandoned abandonedSnap 1 = true ↔
        (1 ∈ abandonedSnap.visibleCommits ∧ canonicalRep abandonedSnap.rewrites 1 ≠ 1 ∧
          refReaches abandonedParents 2 abandonedSnap 1 = false)) := by
  refine ⟨by decide, by decide, by decide⟩

/-- Claim C7: ignoreBranches filtering.  A committed triple whose ref
matches any ignore pattern is dropped by the classifier; a triple
matching no pattern (and that is neither a synthetic pack triple nor an
`old = new` no-op) is kept as a `RefMove`.  Concretely, the pattern
`release/*` matches `release/v1` and `release/v2` but not `feature-x`. -/
theorem ignore_branches_filtering :
    (∀ (packed : List (RefName × Oid)) (patterns : List String) (tx : TxId) (t : Triple),
        refIsIgnored patterns t.refName = true →
        classifyTriple packed patterns tx TxState.committed t = none) ∧
    (∀ (packed : List (RefName × Oid)) (patterns : List String) (tx : TxId) (t : Triple),
        refIsIgnored patterns t.refName = false →
        isSyntheticPackTriple packed t = false →
        t.oldOid ≠ t.newOid →
        classifyTriple packed patterns tx TxState.committed t =
          some (Event.refMove tx t.refName t.oldOid t.newOid)) ∧
    refIsIgnored ["release/*"] "release/v1" = true ∧
    refIsIgnored ["release/*"] "release/v2" = true ∧
    refIsIgnored ["release/*"] "feature-x" = false := by
  refine ⟨?_, ?_, by decide, by decide, by decide⟩
  · intro packed patterns tx t hig
    by_cases hp : isSyntheticPackTriple packed t <;> simp [classifyTriple, hp, hig]
  · intro packed patterns tx t hig hp hne
    simp [classifyTriple, hp, hig, hne]

/-- Witness for C7: the classifier drops an update of `release/v1` and
keeps one of `feature-x` under the pattern list `[release/*]`. -/
theorem ignore_branches_filtering_witness :
    classifyTriple [] ["release/*"] 1 TxState.committed ⟨"release/v1", 5, 6⟩ = none ∧
    classifyTriple [] ["release/*"] 1 TxState.committed ⟨"feature-x", 5, 6⟩ =
      some (Event.refMove 1 "feature-x" 5 6) :=
  ⟨ignore_branches_filtering.1 [] ["release/*"] 1 ⟨"release/v1", 5, 6⟩ (by decide),
   ignore_branches_filtering.2.1 [] ["release/*"] 1 ⟨"feature-x", 5, 6⟩
     (by decide) (by decide) (by decide)⟩

/-- With a resolved HEAD, `advance` runs the post-HEAD control flow. -/
theorem advance_eq_withHead (env : AdvanceEnv) (headOid : Oid)
    (h : env.headOid = some headOid) :
    advance env = advanceWithHead env headOid := by
  unfold advance
  rw [h]

/-- With a nonempty sibling set, every branch of the post-HEAD control
flow records the issued `move_subtree` calls. -/
theorem advanceWithHead_movesRequested (env : AdvanceEnv) (headOid : Oid)
    (hsib : advanceSiblings env.dag headOid ≠ []) :
    (advanceWithHead env headOid).movesRequested = some (advanceMoves env.dag headOid) := by
  have hne : (advanceSiblings env.dag headOid).isEmpty = false := by
    simp [List.isEmpty_iff, hsib]
  unfold advanceWithHead
  dsimp only
  rw [hne]
  simp only [Bool.false_eq_true, if_false]
  rcases hb : env.buildPlan (advanceMoves env.dag headOid) with e | o
  · cases e <;> rfl
  · rcases o with _ | plan
    · rfl
    · dsimp only
      cases hx : env.executePlan plan <;> rfl

/-- Claim C4: advance new-parent substitution.  The new-parent list of a
sibling is elementwise its current parent list with every parent of HEAD
replaced by HEAD and every other parent unchanged, order preserved; and
the `move_subtree` calls `advance` issues assign exactly that list to
each visible sibling. -/
theorem advance_new_parent_substitution :
    (∀ (headCommitParents : List Oid) (headOid : Oid) (parentOids : List Oid) (i : Nat),
        (newParentOids headCommitParents headOid parentOids).get? i =
          (parentOids.get? i).map
            (fun p => if headCommitParents.contains p then headOid else p)) ∧
    (∀ (env : AdvanceEnv) (headOid : Oid), env.headOid = some headOid →
        advanceSiblings env.dag headOid ≠ [] →
        (advance env).movesRequested =
          some ((advanceSiblings env.dag headOid).map
            (fun s => (s, newParentOids (env.dag.parentsOf headOid) headOid
              (env.dag.parentsOf s))))) := by
  constructor
  · intro headCommitParents headOid parentOids i
    simp [newParentOids]
  · intro env headOid hhead hsib
    rw [advance_eq_withHead env headOid hhead,
      advanceWithHead_movesRequested env headOid hsib]
    rfl

/-- Witness for C4: in the concrete stack, the one sibling (commit 2,
parent 1) is assigned new parent 3 = HEAD. -/
theorem advance_new_parent_substitution_witness :
    (newParentOids [1] 3 [1]).get? 0 = some 3 ∧
    (advance envOkPlan).movesRequested = some [(2, [3])] :=
  ⟨(advance_new_parent_substitution.1 [1] 3 [1] 0).trans (by decide),
   (advance_new_parent_substitution.2 envOkPlan 3 rfl (by decide)).trans (by decide)⟩

/-- Claim C5: advance exit-code policy.  With a resolved HEAD and a
nonempty sibling set: a public-commits plan error prints the guidance
line and exits 0 (advisory refusal); an illegal-commits plan error exits
1; a constraint-cycle error exits 1; a declined merge exits 1; a failed
on-disk execution exits with the backend's exit code; success exits 0. -/
theorem advance_exit_code_policy (env : AdvanceEnv) (headOid : Oid)
    (hhead : env.headOid = some headOid)
    (hsib : advanceSiblings env.dag headOid ≠ []) :
    (∀ cs, env.buildPlan (advanceMoves env.dag headOid) =
        Except.error (BuildRebasePlanError.movePublicCommits cs) →
      (advance env).exitCode = 0 ∧ publicCommitsAdvice ∈ (advance env).output) ∧
    (∀ cs, env.buildPlan (advanceMoves env.dag headOid) =
        Except.error (BuildRebasePlanError.moveIllegalCommits cs) →
      (advance env).exitCode = 1) ∧
    (env.buildPlan (advanceMoves env.dag headOid) =
        Except.error BuildRebasePlanError.constraintCycle →
      (advance env).exitCode = 1) ∧
    (∀ plan, env.buildPlan (advanceMoves env.dag headOid) = Except.ok (some plan) →
      (env.executePlan plan = ExecuteRebasePlanResult.declinedToMerge →
        (advance env).exitCode = 1) ∧
      (∀ e, env.executePlan plan = ExecuteRebasePlanResult.failed e →
        (advance env).exitCode = e) ∧
      (env.executePlan plan = ExecuteRebasePlanResult.succeeded →
        (advance env).exitCode = 0)) := by
  have hne : (advanceSiblings env.dag headOid).isEmpty = false := by
    simp [List.isEmpty_iff, hsib]
  rw [advance_eq_withHead env headOid hhead]
  unfold advanceWithHead
  dsimp only
  rw [hne]
  simp only [Bool.false_eq_true, if_false]
  refine ⟨?_, ?_, ?_, ?_⟩
  · intro cs hb
    rw [hb]
    simp [publicCommitsAdvice]
  · intro cs hb
    rw [hb]
  · intro hb
    rw [hb]
  · intro plan hb
    rw [hb]
    dsimp only
    refine ⟨?_, ?_, ?_⟩
    · intro hx; rw [hx]
    · intro e hx; rw [hx]
    · intro hx; rw [hx]

/-- Witness for C5: a concrete advisory refusal — the builder refuses
with a public-commits error, the command prints the guidance and exits
0. -/
theorem advance_exit_code_policy_witness :
    (advance envPublicRefusal).exitCode = 0 ∧
    publicCommitsAdvice ∈ (advance envPublicRefusal).output :=
  (advance_exit_code_policy envPublicRefusal 3 rfl (by decide)).1 [2] rfl

/-- Claim C6 (amended): with no visible siblings, `advance` prints
exactly "No child commits to advance." and exits 0 with no plan built and
no rebase executed; when the planner elides every step (`Ok(None)`), it
prints that same line after the "Advancing …" header — not alone — and
exits 0 without executing a rebase. -/
theorem advance_no_siblings_message (env : AdvanceEnv) (headOid : Oid)
    (hhead : env.headOid = some headOid) :
    (advanceSiblings env.dag headOid = [] →
      advance env = { txAllocated := true, output := [noChildMessage], exitCode := 0,
                      movesRequested := none, executedPlan := none }) ∧
    (env.buildPlan (advanceMoves env.dag headOid) = Except.ok none →
      advanceSiblings env.dag headOid ≠ [] →
      (advance env).output =
        [advancingMessage (advanceSiblings env.dag headOid).length, noChildMessage] ∧
      (advance env).exitCode = 0 ∧ (advance env).executedPlan = none) := by
  rw [advance_eq_withHead env headOid hhead]
  constructor
  · intro hempty
    have hne : (advanceSiblings env.dag headOid).isEmpty = true := by
      simp [List.isEmpty_iff, hempty]
    unfold advanceWithHead
    dsimp only
    rw [hne]
    simp only [if_true]
  · intro hb hsib
    have hne : (advanceSiblings env.dag headOid).isEmpty = false := by
      simp [List.isEmpty_iff, hsib]
    unfold advanceWithHead
    dsimp only
    rw [hne]
    simp only [Bool.false_eq_true, if_false]
    rw [hb]
    exact ⟨rfl, rfl, rfl⟩

/-- Counterexample to C6 as stated: with the concrete elided-plan
environment the command exits 0 and executes nothing, but its output is
the header followed by "No child commits to advance.", not exactly that
line. -/
theorem advance_no_siblings_counterexample :
    (advance envElided).exitCode = 0 ∧
    (advance envElided).executedPlan = none ∧
    (advance envElided).output = [advancingMessage 1, noChildMessage] ∧
    ¬ ((advance envElided).output = [noChildMessage]) := by
  refine ⟨rfl, rfl, rfl, by decide⟩

/-- Witness for C6 at two concrete environments: an empty sibling set,
and an elided plan. -/
theorem advance_no_siblings_witness :
    advance envNoSiblings = { txAllocated := true, output := [noChildMessage], exitCode := 0,
                              movesRequested := none, executedPlan := none } ∧
    ((advance envElided).output =
        [advancingMessage (advanceSiblings envElided.dag 3).length, noChildMessage] ∧
      (advance envElided).exitCode = 0 ∧ (advance envElided).executedPlan = none) :=
  ⟨(advance_no_siblings_message envNoSiblings 1 rfl).1 rfl,
   (advance_no_siblings_message envElided 3 rfl).2 rfl (by decide)⟩

/-- Claim C10 (amended): with an unborn HEAD, `advance` prints "No commit
is currently checked out.", exits 1, issues no `move_subtree` calls and
executes no rebase — but it has already allocated an event-log
transaction id (the allocation at `advance.rs:78` precedes the HEAD check
at `advance.rs:91`), so the store's transactions table is written even on
this path. -/
theorem advance_unborn_head (env : AdvanceEnv) (h : env.headOid = none) :
    advance env = { txAllocated := true, output := [noHeadMessage], exitCode := 1,
                    movesRequested := none, executedPlan := none } := by
  unfold advance
  rw [h]

/-- Counterexample to C10 as stated: at the concrete unborn-HEAD
environment the message and exit code are as claimed and no plan is
built, but the transaction id was allocated, refuting "without …
modifying any state". -/
theorem advance_unborn_head_counterexample :
    (advance envNoHead).output = [noHeadMessage] ∧
    (advance envNoHead).exitCode = 1 ∧
    (advance envNoHead).movesRequested = none ∧
    (advance envNoHead).executedPlan = none ∧
    ¬ ((advance envNoHead).txAllocated = false) := by
  refine ⟨rfl, rfl, rfl, rfl, by decide⟩

/-- Witness for C10 at the concrete unborn-HEAD environment. -/
theorem advance_unborn_head_witness :
    advance envNoHead = { txAllocated := true, output := [noHeadMessage], exitCode := 1,
                          movesRequested := none, executedPlan := none } :=
  advance_unborn_head envNoHead rfl

/-- Claim C9: auto-advance trigger.  When `branchless.advance.auto` is
true, the post-commit hook emits its events and then runs the very same
`advance` algorithm, so stacked siblings are moved onto the new commit
without the user invoking `advance`. -/
theorem auto_advance_trigger (cfg : Config) (tx : TxId) (headOid : Oid)
    (env : AdvanceEnv) (h : assocLookup cfg advanceAutoKey = some true) :
    (postCommitHook cfg tx headOid env).advanceOutcome = some (advance env) ∧
    (postCommitHook cfg tx headOid env).events =
      [Event.commitVisible tx headOid, Event.workingCopySnapshot tx headOid] := by
  unfold postCommitHook
  rw [h]
  exact ⟨rfl, rfl⟩

/-- Witness for C9: with auto-advance configured on, the post-commit
hook runs `advance`, which in the concrete stack moves sibling 2 onto
the new HEAD 3. -/
theorem auto_advance_trigger_witness :
    (postCommitHook [(advanceAutoKey, true)] 5 3 envOkPlan).advanceOutcome =
      some (advance envOkPlan) ∧
    (postCommitHook [(advanceAutoKey, true)] 5 3 envOkPlan).events =
      [Event.commitVisible 5 3, Event.workingCopySnapshot 5 3] :=
  auto_advance_trigger [(advanceAutoKey, true)] 5 3 envOkPlan rfl
